import Mathlib

/-!
Verification of the CBRA case-tracking data model (USGS-WiM/CBRA).

The development shallowly embeds the Python/Django source:
- `cbraservices/models.py` — the `Case` record with its derived `status` and
  `case_number` accessors, and the `CaseFile` record with its derived `name`
  accessor and upload-location function;
- `cbraservices/permissions.py` — the `IsStaff` permission check;
- `cbraservices/migrations/0009_auto_20160408_0902.py` — the frozen default
  for `Case.request_date`.

Dates are modelled as plain year/month/day triples (`PyDate`); a Django
`DateField(null=True)` becomes `Option PyDate`.  A Python `datetime.date`
value is always truthy and `None` is falsy, so `if self.some_date:` embeds as
`Option.isSome`.  Database rows are modelled as Lean structures; foreign keys
become the referenced record (when its fields matter) or its integer primary
key (when they do not).
-/

/-- A calendar date as stored by a Django `DateField` (`datetime.date`). -/
structure PyDate where
  year : Nat
  month : Nat
  day : Nat
deriving DecidableEq

/-- The `Case` model (`models.py`, class `Case`).  Fields are listed as in the
source; foreign keys (`requester`, `property`, `cbrs_unit`, `map_number`,
`determination`, `analyst`, `qc_reviewer`, `fws_reviewer`) are modelled by the
referenced row's integer primary key; `distance` is a `FloatField` whose
numeric value no accessor reads, so its value is modelled as an integer
measurement; `tags` is the set of related Tag primary keys. -/
structure Case where
  id : Nat
  case_hash : String
  request_date : PyDate
  requester : Nat
  property : Nat
  cbrs_unit : Option Nat
  map_number : Option Nat
  cbrs_map_date : Option PyDate
  determination : Option Nat
  prohibition_date : Option PyDate
  distance : Option Int
  fws_fo_received_date : Option PyDate
  fws_hq_received_date : Option PyDate
  final_letter_date : Option PyDate
  close_date : Option PyDate
  final_letter_recipient : String
  analyst : Option Nat
  analyst_signoff_date : Option PyDate
  qc_reviewer : Option Nat
  qc_reviewer_signoff_date : Option PyDate
  fws_reviewer : Option Nat
  fws_reviewer_signoff_date : Option PyDate
  priority : Bool
  tags : List Nat
deriving DecidableEq

/-- `Case._get_id` (`models.py` lines 71-73): `return '%s' % self.id`.
For an integer primary key, Python renders its decimal representation. -/
def Case._get_id (self : Case) : String :=
  toString self.id

/-- `Case._get_status` (`models.py` lines 75-88): the if/elif chain deriving
the status label.  A set date is truthy, an unset (`None`) date is falsy. -/
def Case._get_status (self : Case) : String :=
  if self.close_date.isSome && !self.final_letter_date.isSome then
    "Closed with no Final Letter"
  else if self.close_date.isSome then
    "Final"
  else if self.fws_reviewer_signoff_date.isSome then
    "Awaiting Final Letter"
  else if self.qc_reviewer_signoff_date.isSome then
    "Awaiting FWS Review"
  else if self.analyst_signoff_date.isSome then
    "Awaiting QC"
  else
    "Received"

/-- `case_number = property(_get_id)` (`models.py` line 94). -/
def Case.case_number (self : Case) : String :=
  self._get_id

/-- `status = property(_get_status)` (`models.py` line 96). -/
def Case.status (self : Case) : String :=
  self._get_status

/-- `Case.__str__` (`models.py` lines 120-121): `return self.case_number`. -/
def Case.str (self : Case) : String :=
  self.case_number

/-- The six status labels that appear in `Case._get_status`. -/
def statusLabels : List String :=
  ["Closed with no Final Letter", "Final", "Awaiting Final Letter",
   "Awaiting FWS Review", "Awaiting QC", "Received"]

/-- A concrete `Case` row with every optional field unset, used by the
witnesses below (structure-update syntax varies the fields under test). -/
def sampleCase : Case where
  id := 42
  case_hash := "abc123"
  request_date := ⟨2016, 4, 8⟩
  requester := 1
  property := 1
  cbrs_unit := none
  map_number := none
  cbrs_map_date := none
  determination := none
  prohibition_date := none
  distance := none
  fws_fo_received_date := none
  fws_hq_received_date := none
  final_letter_date := none
  close_date := none
  final_letter_recipient := ""
  analyst := none
  analyst_signoff_date := none
  qc_reviewer := none
  qc_reviewer_signoff_date := none
  fws_reviewer := none
  fws_reviewer_signoff_date := none
  priority := false
  tags := []

/-!
### Access control (`permissions.py`, class `IsStaff`)

`has_permission` runs `User.objects.get(username=request.user).is_staff`
inside a `try`, catching only `ObjectDoesNotExist`.  Django's `objects.get`
returns the unique matching row, raises `DoesNotExist` when there is none and
`MultipleObjectsReturned` when there are several; the latter would escape the
handler, so the embedding returns `Except`.  The user table is a list of rows;
the acting identity is the request user's username (Django coerces the
`username=request.user` lookup through `str`, which for a `User` is its
username).
-/

/-- One row of the Django `auth_user` table, restricted to the fields the
permission check reads. -/
structure PyUser where
  username : String
  is_staff : Bool
deriving DecidableEq

/-- Outcome of Django's `Model.objects.get(...)`. -/
inductive GetResult where
  | found : PyUser → GetResult
  | doesNotExist : GetResult
  | multipleObjectsReturned : GetResult
deriving DecidableEq

/-- `User.objects.get(username=uname)` over a user table `db`. -/
def objects_get (db : List PyUser) (uname : String) : GetResult :=
  match db.filter (fun u => u.username == uname) with
  | [] => .doesNotExist
  | [u] => .found u
  | _ :: _ :: _ => .multipleObjectsReturned

/-- `IsStaff.has_permission` (`permissions.py` lines 11-17): look the request
user up by username; return its `is_staff` flag; a missing row is caught and
becomes `False`; any other exception propagates (`Except.error`). -/
def IsStaff.has_permission (db : List PyUser) (request_user : String) :
    Except String Bool :=
  match objects_get db request_user with
  | .found u => .ok u.is_staff
  | .doesNotExist => .ok false
  | .multipleObjectsReturned => .error "MultipleObjectsReturned"

/-!
### Case files (`models.py`, class `CaseFile`)
-/

/-- The `CaseFile` model: the stored file path (`FileField` stores a relative
path string), the owning case, the optional uploader (by primary key, as the
source reads `instance.uploader_id`), and the upload date. -/
structure CaseFile where
  file : String
  case : Case
  uploader_id : Option Nat
  uploaded_date : Option PyDate
deriving DecidableEq

/-- Python `str.split(sep)` for a one-character separator: split at every
occurrence, keeping empty pieces, so the result is always non-empty. -/
def pySplit (c : Char) : List Char → List (List Char)
  | [] => [[]]
  | x :: xs =>
    if x = c then
      [] :: pySplit c xs
    else
      match pySplit c xs with
      | [] => [[x]]
      | y :: ys => (x :: y) :: ys

/-- `CaseFile._get_filename` (`models.py` lines 135-137):
`'%s' % str(self.file).split('/')[-1]` — the last piece of the stored path
split on `'/'` (Python index `-1` of a non-empty list is its last element). -/
def CaseFile._get_filename (self : CaseFile) : String :=
  String.mk ((pySplit '/' self.file.data).getLastD [])

/-- `name = property(_get_filename)` (`models.py` line 147). -/
def CaseFile.name (self : CaseFile) : String :=
  self._get_filename

/-- `CaseFile.__str__` (`models.py` lines 153-154): `return str(self.name)`. -/
def CaseFile.str (self : CaseFile) : String :=
  self.name

/-- Python truthiness of an optional integer column: `None` and `0` are falsy.
(Django primary keys are positive, so `some 0` never occurs in a live row.) -/
def pyTruthyOptNat : Option Nat → Bool
  | none => false
  | some n => n != 0

/-- `CaseFile.casefile_location` (`models.py` lines 139-145): requester
uploads (no `uploader_id`) go under a `requester/` sub-folder of the case's
folder; staff uploads go directly in the case's folder.  `{0}` formats
`instance.case` through `Case.__str__`. -/
def CaseFile.casefile_location (self : CaseFile) (filename : String) : String :=
  if !(pyTruthyOptNat self.uploader_id) then
    "casefiles/" ++ self.case.str ++ "/requester/" ++ filename
  else
    "casefiles/" ++ self.case.str ++ "/" ++ filename

/-!
### The `request_date` default (`models.py` line 97, migration 0009)

`request_date = models.DateField(default=datetime.now().date())` passes the
*value* of `datetime.now().date()` — evaluated once, when the class body runs
at module import — rather than a callable, so every later row gets that fixed
import-time date as its default.  Migration `0009_auto_20160408_0902.py`
records exactly this: `field=models.DateField(default=datetime.date(2016, 4, 8))`.
(Contrast `HistoryModel.created_date`, which passes the callable
`datetime.now` and is therefore evaluated per row.)
-/

/-- The `Case.request_date` column default: the date captured when
`models.py` was imported, independent of any later creation time. -/
def request_date_field_default (module_import_date : PyDate) : PyDate :=
  module_import_date

/-- The default frozen into migration 0009: `datetime.date(2016, 4, 8)`. -/
def migration_0009_request_date_default : PyDate :=
  ⟨2016, 4, 8⟩

/-- The `request_date` stored for a Case created on `creation_date` in a
process whose model module was imported on `module_import_date`: the explicit
value when one is given, otherwise the fixed column default. -/
def new_case_request_date (module_import_date creation_date : PyDate)
    (explicit : Option PyDate) : PyDate :=
  explicit.getD (request_date_field_default module_import_date)

/-!
### Specification-side description of the filename accessor

The spec describes `_get_filename` as "the substring of the stored file path
after its last `'/'` separator" (the whole path when it has none).  The
recursion below states exactly that, independently of `pySplit`: drop
everything up to and including the last occurrence of `c`.
-/

/-- The suffix of `l` after the last occurrence of `c`; `l` itself when `c`
does not occur. -/
def afterLast (c : Char) : List Char → List Char
  | [] => []
  | x :: xs => if x = c ∨ c ∈ xs then afterLast c xs else x :: xs

/-- `afterLast` lifted to strings, for the `'/'` separator. -/
def afterLastSlash (s : String) : String :=
  String.mk (afterLast '/' s.data)

/-- A concrete `CaseFile` row for witnesses. -/
def sampleFile : CaseFile where
  file := "casefiles/42/photo.png"
  case := sampleCase
  uploader_id := none
  uploaded_date := none

/-- A concrete user table for witnesses: one staff user, one non-staff
user. -/
def sampleUserDb : List PyUser :=
  [⟨"alice", true⟩, ⟨"bob", false⟩]

/-!
## Theorems
-/

/-- Claim C1: for every Case with `close_date` set, the derived status is
"Closed with no Final Letter" when `final_letter_date` is unset, and "Final"
when `final_letter_date` is also set — regardless of every other field, in
particular the three signoff dates. -/
theorem case_status_close_date_rules (c : Case)
    (hclose : c.close_date.isSome = true) :
    (c.final_letter_date = none → c._get_status = "Closed with no Final Letter")
    ∧ (c.final_letter_date.isSome = true → c._get_status = "Final") := by
  constructor
  · intro hfl
    simp [Case._get_status, hclose, hfl]
  · intro hfl
    simp [Case._get_status, hclose, hfl]

/-- Witness for C1: a closed case without a final letter (all three signoffs
set) and a closed case with one. -/
theorem case_status_close_date_rules_witness :
    ({ sampleCase with
        close_date := some ⟨2016, 5, 1⟩
        analyst_signoff_date := some ⟨2016, 4, 1⟩
        qc_reviewer_signoff_date := some ⟨2016, 4, 10⟩
        fws_reviewer_signoff_date := some ⟨2016, 4, 20⟩ } : Case)._get_status
      = "Closed with no Final Letter"
    ∧ ({ sampleCase with
        close_date := some ⟨2016, 5, 1⟩
        final_letter_date := some ⟨2016, 5, 2⟩ } : Case)._get_status = "Final" :=
 by
  refine ⟨(case_status_close_date_rules _ ?_).1 ?_,
    (case_status_close_date_rules _ ?_).2 ?_⟩ <;> rfl

/-- Claim C2: with `close_date` unset, signoffs are ranked: an fws-reviewer
signoff gives "Awaiting Final Letter"; otherwise a qc-reviewer signoff gives
"Awaiting FWS Review"; otherwise an analyst signoff gives "Awaiting QC". -/
theorem case_status_signoff_precedence (c : Case)
    (hclose : c.close_date = none) :
    (c.fws_reviewer_signoff_date.isSome = true →
      c._get_status = "Awaiting Final Letter")
    ∧ (c.fws_reviewer_signoff_date = none →
        c.qc_reviewer_signoff_date.isSome = true →
        c._get_status = "Awaiting FWS Review")
    ∧ (c.fws_reviewer_signoff_date = none →
        c.qc_reviewer_signoff_date = none →
        c.analyst_signoff_date.isSome = true →
        c._get_status = "Awaiting QC") := by
  refine ⟨fun h1 => ?_, fun h1 h2 => ?_, fun h1 h2 h3 => ?_⟩
  · simp [Case._get_status, hclose, h1]
  · simp [Case._get_status, hclose, h1, h2]
  · simp [Case._get_status, hclose, h1, h2, h3]

/-- Witness for C2: all three signoffs set (close unset), only the qc
signoff set, only the analyst signoff set. -/
theorem case_status_signoff_precedence_witness :
    ({ sampleCase with
        analyst_signoff_date := some ⟨2016, 4, 1⟩
        qc_reviewer_signoff_date := some ⟨2016, 4, 10⟩
        fws_reviewer_signoff_date := some ⟨2016, 4, 20⟩ } : Case)._get_status
      = "Awaiting Final Letter"
    ∧ ({ sampleCase with
        qc_reviewer_signoff_date := some ⟨2016, 4, 10⟩ } : Case)._get_status
      = "Awaiting FWS Review"
    ∧ ({ sampleCase with
        analyst_signoff_date := some ⟨2016, 4, 1⟩ } : Case)._get_status
      = "Awaiting QC" :=
 by
  refine ⟨(case_status_signoff_precedence _ ?_).1 ?_,
    (case_status_signoff_precedence _ ?_).2.1 ?_ ?_,
    (case_status_signoff_precedence _ ?_).2.2 ?_ ?_ ?_⟩ <;> rfl

/-- Claim C4: status derivation is total — every Case (hence every
combination of the five optional dates) yields a result — and when none of
the five dates is set the result is "Received". -/
theorem case_status_total (c : Case) :
    (∃ s : String, c._get_status = s)
    ∧ (c.close_date = none → c.final_letter_date = none →
        c.fws_reviewer_signoff_date = none → c.qc_reviewer_signoff_date = none →
        c.analyst_signoff_date = none → c._get_status = "Received") := by
  refine ⟨⟨c._get_status, rfl⟩, fun h1 h2 h3 h4 h5 => ?_⟩
  simp [Case._get_status, h1, h2, h3, h4, h5]

/-- Witness for C4: the all-unset row is "Received". -/
theorem case_status_total_witness : sampleCase._get_status = "Received" :=
  (case_status_total sampleCase).2 rfl rfl rfl rfl rfl

/-- Claim C5: the derived status depends on exactly the five date fields:
two Cases agreeing on them have equal status, whatever their other fields. -/
theorem case_status_pure_in_five_fields (c₁ c₂ : Case)
    (h1 : c₁.close_date = c₂.close_date)
    (h2 : c₁.final_letter_date = c₂.final_letter_date)
    (h3 : c₁.fws_reviewer_signoff_date = c₂.fws_reviewer_signoff_date)
    (h4 : c₁.qc_reviewer_signoff_date = c₂.qc_reviewer_signoff_date)
    (h5 : c₁.analyst_signoff_date = c₂.analyst_signoff_date) :
    c₁._get_status = c₂._get_status := by
  simp only [Case._get_status, h1, h2, h3, h4, h5]

/-- Witness for C5: two rows agreeing on the five dates but differing in id,
hash, request date, map date, analyst, priority and tags have equal status. -/
theorem case_status_pure_in_five_fields_witness :
    ({ sampleCase with close_date := some ⟨2016, 5, 1⟩ } : Case)._get_status
      = ({ sampleCase with
          close_date := some ⟨2016, 5, 1⟩
          id := 7
          priority := true
          case_hash := "zzz"
          request_date := ⟨2015, 1, 1⟩
          tags := [3, 4]
          cbrs_map_date := some ⟨2016, 1, 1⟩
          analyst := some 9 } : Case)._get_status :=
 by
  refine case_status_pure_in_five_fields _ _ ?_ ?_ ?_ ?_ ?_ <;> rfl

/-- Claim C6: the status accessor only ever returns one of the six labels. -/
theorem case_status_in_labels (c : Case) : c._get_status ∈ statusLabels := by
  unfold Case._get_status
  split_ifs <;> simp [statusLabels]

/-- Claim C9: the case-number accessor is the persisted id formatted as a
string, and the string form of a Case is exactly that case number. -/
theorem case_number_is_id_string (c : Case) :
    c.case_number = toString c.id ∧ c.str = toString c.id :=
  ⟨rfl, rfl⟩

/-- Claim C3: with usernames unique (the `auth_user` table's constraint), the
permission check grants access exactly when a matching row exists and is
staff; an absent row yields an ordinary `False` (denial), not an error; and
the check always returns a normal boolean, never an exception. -/
theorem isStaff_permitted_iff (db : List PyUser) (u : String)
    (huniq : db.Pairwise (fun a b => a.username ≠ b.username)) :
    (IsStaff.has_permission db u = Except.ok true ↔
      ∃ r ∈ db, r.username = u ∧ r.is_staff = true)
    ∧ ((∀ r ∈ db, r.username ≠ u) →
        IsStaff.has_permission db u = Except.ok false)
    ∧ (∃ b : Bool, IsStaff.has_permission db u = Except.ok b) := by
  cases hf : db.filter (fun r => r.username == u) with
  | nil =>
    have hperm : IsStaff.has_permission db u = Except.ok false := by
      simp [IsStaff.has_permission, objects_get, hf]
    refine ⟨⟨fun h => ?_, fun h => ?_⟩, fun _ => hperm, ⟨false, hperm⟩⟩
    · rw [hperm] at h
      simp at h
    · rcases h with ⟨r, hr, hru, _⟩
      have hmem : r ∈ db.filter (fun r => r.username == u) :=
        List.mem_filter.mpr ⟨hr, by simp [hru]⟩
      rw [hf] at hmem
      cases hmem
  | cons r rest =>
    cases rest with
    | nil =>
      have hrmem : r ∈ db.filter (fun r => r.username == u) := by
        rw [hf]
        exact List.mem_cons_self _ _
      have hr := List.mem_filter.mp hrmem
      have hru : r.username = u := by simpa using hr.2
      have hperm : IsStaff.has_permission db u = Except.ok r.is_staff := by
        simp [IsStaff.has_permission, objects_get, hf]
      refine ⟨⟨fun h => ?_, fun h => ?_⟩, fun hall => ?_, ⟨r.is_staff, hperm⟩⟩
      · rw [hperm] at h
        have hst : r.is_staff = true := by simpa using h
        exact ⟨r, hr.1, hru, hst⟩
      · rcases h with ⟨r', hr', hru', hstaff⟩
        have hmem : r' ∈ db.filter (fun r => r.username == u) :=
          List.mem_filter.mpr ⟨hr', by simp [hru']⟩
        rw [hf] at hmem
        have : r' = r := by simpa using hmem
        subst this
        rw [hperm, hstaff]
      · exact absurd hru (hall r hr.1)
    | cons r2 rest2 =>
      have hpf := huniq.filter (fun r => r.username == u)
      rw [hf] at hpf
      have h1 : r.username ≠ r2.username :=
        (List.pairwise_cons.mp hpf).1 r2 (List.mem_cons_self _ _)
      have hrmem : r ∈ db.filter (fun x => x.username == u) := by
        rw [hf]
        simp
      have hr2mem : r2 ∈ db.filter (fun x => x.username == u) := by
        rw [hf]
        simp
      have e1 : r.username = u := by simpa using (List.mem_filter.mp hrmem).2
      have e2 : r2.username = u := by simpa using (List.mem_filter.mp hr2mem).2
      exact absurd (e1.trans e2.symm) h1

/-- Witness for C3: on the two-row table, "alice" (staff) is permitted,
"carol" (no row) is denied with an ordinary `False`. -/
theorem isStaff_permitted_iff_witness :
    IsStaff.has_permission sampleUserDb "alice" = Except.ok true
    ∧ IsStaff.has_permission sampleUserDb "carol" = Except.ok false := by
  constructor
  · exact (isStaff_permitted_iff sampleUserDb "alice" (by decide)).1.mpr
      ⟨⟨"alice", true⟩, by decide, rfl, rfl⟩
  · exact (isStaff_permitted_iff sampleUserDb "carol" (by decide)).2.1
      (by decide)

/-- Claim C7 (refuted by the code): `models.py` line 97 passes the value of
`datetime.now().date()` — fixed at module import — as the column default, so
a Case created later without an explicit `request_date` gets the import-time
date, not its creation date.  Migration 0009 froze that value as
`datetime.date(2016, 4, 8)`.  Evaluating the embedding at the failing input
(module imported 2016-04-08, Case created 2016-05-01, no explicit date): the
stored date is 2016-04-08, which differs from the creation date. -/
theorem request_date_default_is_import_date :
    new_case_request_date ⟨2016, 4, 8⟩ ⟨2016, 5, 1⟩ none
      = migration_0009_request_date_default
    ∧ migration_0009_request_date_default ≠ (⟨2016, 5, 1⟩ : PyDate) :=
  ⟨rfl, by decide⟩

/-- `pySplit` never returns the empty list (Python `split` always yields at
least one piece, so index `-1` is defined). -/
theorem pySplit_ne_nil (c : Char) (l : List Char) : pySplit c l ≠ [] := by
  cases l with
  | nil => simp [pySplit]
  | cons x xs =>
    simp only [pySplit]
    split
    · simp
    · split <;> simp

/-- When the separator does not occur, Python `split` returns the whole
string as the single piece. -/
theorem pySplit_of_not_mem (c : Char) (l : List Char) (h : c ∉ l) :
    pySplit c l = [l] := by
  induction l with
  | nil => rfl
  | cons x xs ih =>
    have hx : ¬ x = c := fun hxc => h (hxc ▸ List.mem_cons_self x xs)
    have hxs : c ∉ xs := fun hc => h (List.mem_cons_of_mem _ hc)
    simp only [pySplit, if_neg hx, ih hxs]

/-- When the separator occurs, Python `split` returns at least two pieces. -/
theorem two_le_length_pySplit (c : Char) (l : List Char) (h : c ∈ l) :
    2 ≤ (pySplit c l).length := by
  induction l with
  | nil => cases h
  | cons x xs ih =>
    by_cases hx : x = c
    · subst hx
      rw [show pySplit x (x :: xs) = [] :: pySplit x xs by simp [pySplit],
        List.length_cons]
      have h1 : pySplit x xs ≠ [] := pySplit_ne_nil x xs
      have h2 : 1 ≤ (pySplit x xs).length := by
        cases hq : pySplit x xs with
        | nil => exact absurd hq h1
        | cons y ys => simp
      omega
    · have hxs : c ∈ xs := by
        rcases List.mem_cons.mp h with h1 | h1
        · exact absurd h1.symm hx
        · exact h1
      have h2 := ih hxs
      simp only [pySplit, if_neg hx]
      cases hq : pySplit c xs with
      | nil => exact absurd hq (pySplit_ne_nil c xs)
      | cons y ys =>
        rw [hq] at h2
        simpa using h2

/-- The last piece of a Python split is exactly the suffix after the last
occurrence of the separator. -/
theorem pySplit_getLastD_afterLast (c : Char) (l : List Char) :
    (pySplit c l).getLastD [] = afterLast c l := by
  induction l with
  | nil => rfl
  | cons x xs ih =>
    by_cases hx : x = c
    · subst hx
      rw [show pySplit x (x :: xs) = [] :: pySplit x xs by simp [pySplit]]
      rw [List.getLastD_cons]
      rw [show afterLast x (x :: xs) = afterLast x xs by simp [afterLast]]
      exact ih
    · by_cases hm : c ∈ xs
      · have ha : afterLast c (x :: xs) = afterLast c xs := by
          simp [afterLast, hm]
        cases hq : pySplit c xs with
        | nil => exact absurd hq (pySplit_ne_nil c xs)
        | cons y ys =>
          cases ys with
          | nil =>
            have h2 := two_le_length_pySplit c xs hm
            rw [hq] at h2
            simp at h2
          | cons z zs =>
            have hsp : pySplit c (x :: xs) = (x :: y) :: z :: zs := by
              simp only [pySplit, if_neg hx, hq]
            rw [hsp, List.getLastD_cons, List.getLastD_cons, ha, ← ih, hq,
              List.getLastD_cons, List.getLastD_cons]
      · have ha : afterLast c (x :: xs) = x :: xs := by
          have hor : ¬ (x = c ∨ c ∈ xs) := by
            rintro (h1 | h1)
            · exact hx h1
            · exact hm h1
          simp only [afterLast, if_neg hor]
        have hsp : pySplit c (x :: xs) = [x :: xs] := by
          simp only [pySplit, if_neg hx, pySplit_of_not_mem c xs hm]
        rw [hsp, ha]
        rfl

/-- Claim C10: the derived name accessor returns the part of the stored file
path after its last `'/'`; a path without `'/'` is returned whole. -/
theorem casefile_name_after_last_slash (cf : CaseFile) :
    cf._get_filename = afterLastSlash cf.file
    ∧ ('/' ∉ cf.file.data → cf._get_filename = cf.file) := by
  constructor
  · unfold CaseFile._get_filename afterLastSlash
    rw [pySplit_getLastD_afterLast]
  · intro h
    unfold CaseFile._get_filename
    rw [pySplit_of_not_mem _ _ h]
    rfl

/-- Witness for C10: a path with separators and one without. -/
theorem casefile_name_after_last_slash_witness :
    sampleFile._get_filename = afterLastSlash sampleFile.file
    ∧ ({ sampleFile with file := "photo.png" } : CaseFile)._get_filename
      = "photo.png" :=
  ⟨(casefile_name_after_last_slash sampleFile).1,
   (casefile_name_after_last_slash
      { sampleFile with file := "photo.png" }).2 (by decide)⟩

/-- Claim C8: every computed storage location contains the owning case's
identity; requester uploads (no uploader) go under the case's `requester/`
sub-folder, staff uploads (uploader set, with a positive primary key) go
directly in the case's folder, and the two locations always differ for the
same case and filename. -/
theorem casefile_location_scheme (cf cf' : CaseFile) (filename : String) :
    (∃ p q, cf.casefile_location filename = p ++ toString cf.case.id ++ q)
    ∧ (cf.uploader_id = none →
        cf.casefile_location filename
          = "casefiles/" ++ toString cf.case.id ++ "/requester/" ++ filename)
    ∧ (∀ k, cf.uploader_id = some k → k ≠ 0 →
        cf.casefile_location filename
          = "casefiles/" ++ toString cf.case.id ++ "/" ++ filename)
    ∧ (cf.uploader_id = none → pyTruthyOptNat cf'.uploader_id = true →
        cf.case = cf'.case →
        cf.casefile_location filename ≠ cf'.casefile_location filename) := by
  have hreq : ∀ d : CaseFile, pyTruthyOptNat d.uploader_id = false →
      d.casefile_location filename
        = "casefiles/" ++ toString d.case.id ++ "/requester/" ++ filename := by
    intro d hd
    simp [CaseFile.casefile_location, hd, Case.str, Case.case_number,
      Case._get_id]
  have hstaff : ∀ d : CaseFile, pyTruthyOptNat d.uploader_id = true →
      d.casefile_location filename
        = "casefiles/" ++ toString d.case.id ++ "/" ++ filename := by
    intro d hd
    simp [CaseFile.casefile_location, hd, Case.str, Case.case_number,
      Case._get_id]
  refine ⟨?_, ?_, ?_, ?_⟩
  · cases htr : pyTruthyOptNat cf.uploader_id
    · refine ⟨"casefiles/", "/requester/" ++ filename, ?_⟩
      rw [hreq cf htr]
      simp [String.append_assoc]
    · refine ⟨"casefiles/", "/" ++ filename, ?_⟩
      rw [hstaff cf htr]
      simp [String.append_assoc]
  · intro hnone
    exact hreq cf (by simp [pyTruthyOptNat, hnone])
  · intro k hk hk0
    have htr : pyTruthyOptNat cf.uploader_id = true := by
      simp only [pyTruthyOptNat, hk, bne_iff_ne]
      exact hk0
    exact hstaff cf htr
  · intro hnone htr hcase heq
    rw [hreq cf (by simp [pyTruthyOptNat, hnone]), hstaff cf' htr, hcase]
      at heq
    have hlen := congrArg String.length heq
    simp only [String.length_append] at hlen
    have h1 : ("casefiles/" : String).length = 10 := rfl
    have h2 : ("/requester/" : String).length = 11 := rfl
    have h3 : ("/" : String).length = 1 := rfl
    rw [h1, h2, h3] at hlen
    omega

/-- Witness for C8: for case 42, a requester upload and a staff upload of
`photo.png` land in the two concrete locations, which differ. -/
theorem casefile_location_scheme_witness :
    sampleFile.casefile_location "photo.png"
      = "casefiles/42/requester/photo.png"
    ∧ ({ sampleFile with
        uploader_id := some 5 } : CaseFile).casefile_location "photo.png"
      = "casefiles/42/photo.png"
    ∧ sampleFile.casefile_location "photo.png"
      ≠ ({ sampleFile with
          uploader_id := some 5 } : CaseFile).casefile_location "photo.png" := by
  refine ⟨?_, ?_, ?_⟩
  · rw [(casefile_location_scheme sampleFile sampleFile "photo.png").2.1 rfl]
    rfl
  · rw [(casefile_location_scheme
      ({ sampleFile with uploader_id := some 5 } : CaseFile)
      sampleFile "photo.png").2.2.1 5 rfl (by decide)]
    rfl
  · exact (casefile_location_scheme sampleFile
      ({ sampleFile with uploader_id := some 5 } : CaseFile)
      "photo.png").2.2.2 rfl rfl rfl
